import Mathlib

/-!
Verification of the MangoMint → Meta CAPI bridge (`src/server.js`, plus the
PII-fallback variant in `src/unnamed/part_005`).

The JavaScript source is shallowly embedded: pure helpers become Lean
functions, the in-memory caches (`IC_CACHE`, `SENT_CACHE`, `PII_INDEX`)
become association lists threaded through the handlers, wall-clock time is
an explicit `now : Nat` parameter (milliseconds, as `Date.now()`), and the
sequence of HTTP responses the external Meta endpoint would return is a
function `Nat → MetaResponse` indexed by attempt number.

String fields follow the JavaScript truthiness convention of the source:
the empty string models an absent/falsy field, and `jsOr` models `a || b`.
-/

/-- JavaScript `a || b` on strings: `""` is falsy. -/
def jsOr (a b : String) : String := if a = "" then b else a

/-- Association-list lookup by string key (models `Map.get`). -/
def lookupKey {β : Type} : List (String × β) → String → Option β
  | [], _ => none
  | p :: rest, k => if p.1 = k then some p.2 else lookupKey rest k

/-- Remove every binding of a key (models `Map.delete`, and the overwrite
part of `Map.set`). -/
def eraseKey {β : Type} (l : List (String × β)) (k : String) : List (String × β) :=
  l.filter (fun p => p.1 ≠ k)

/- ======================= Normalizer (server.js lines 81-94) ======================= -/

/-- ASCII whitespace, as stripped by JavaScript's `String.prototype.trim`. -/
def wsChar (c : Char) : Bool :=
  c = ' ' || c = '\t' || c = '\n' || c = '\r' || c = '\x0b' || c = '\x0c'

/-- Model of `String.prototype.toLowerCase` on one character (the identity
bundle of this bridge is ASCII). -/
def toLowerChar (c : Char) : Char :=
  if 'A' ≤ c && c ≤ 'Z' then Char.ofNat (c.toNat + 32) else c

/-- Model of `String.prototype.toLowerCase`. -/
def toLowerStr (s : String) : String := ⟨s.data.map toLowerChar⟩

/-- Model of `String.prototype.trim`: strip whitespace from both ends. -/
def trimStr (s : String) : String :=
  ⟨((s.data.dropWhile wsChar).reverse.dropWhile wsChar).reverse⟩

/-- Model of `String.prototype.startsWith`. -/
def startsWithStr (s pre : String) : Bool := pre.data.isPrefixOf s.data

/-- `normEmail`: `String(v || "").trim().toLowerCase()`. -/
def normEmail (v : String) : String := toLowerStr (trimStr v)

/-- `lower`: `String(v || "").trim().toLowerCase()`. -/
def lower (v : String) : String := toLowerStr (trimStr v)

/-- `normPhone`: keep digits and `+`; default-prefix North American numbers. -/
def normPhone (v : String) : String :=
  if v = "" then ""
  else
    let x : String := ⟨v.data.filter (fun c => c.isDigit || c = '+')⟩
    if startsWithStr x "+" then x
    else if x.length = 10 then "+1" ++ x
    else if x.length = 11 && startsWithStr x "1" then "+" ++ x
    else "+" ++ x

/-- One lowercase-hex character for a nibble. -/
def hexChar (n : Nat) : Char :=
  if n < 10 then Char.ofNat (48 + n) else Char.ofNat (87 + n)

/-- Render a natural number as exactly 64 lowercase hex characters
(the low 256 bits, most significant first). -/
def hexDigest64 (n : Nat) : String :=
  ⟨(List.range 64).map (fun i => hexChar (n / 16 ^ (63 - i) % 16))⟩

/-- A deterministic accumulator standing in for the SHA-256 compression. -/
def digestNat (s : String) : Nat :=
  s.data.foldl (fun a c => (a * 131 + c.toNat) % 2 ^ 256) 5381

/-- Model of `sha256` (server.js line 81): SHA-256 comes from `node:crypto`,
an external primitive outside this repository; it is modelled as a
deterministic digest of the canonicalized input rendered as 64 lowercase hex
characters — the only property of the digest the bridge's logic relies on.
The `.trim().toLowerCase()` canonicalization inside the source's `sha256` is
applied by the call sites' normalizers in this embedding. -/
def sha256 (s : String) : String := hexDigest64 (digestNat (toLowerStr (trimStr s)))

/-- One character of the `/^[a-f0-9]{64}$/` class. -/
def isHexLowerChar (c : Char) : Bool :=
  (('0' ≤ c && c ≤ '9') || ('a' ≤ c && c ≤ 'f'))

/-- The `/^[a-f0-9]{64}$/.test` guard (server.js lines 220-223). -/
def isHex64 (s : String) : Bool :=
  s.length = 64 && s.data.all isHexLowerChar

/-- The four identity-field kinds hashed by the intent webhook. -/
inductive FieldKind | em | ph | fn | ln
deriving DecidableEq

/-- Canonicalization per field kind (server.js lines 220-223). -/
def canon : FieldKind → String → String
  | .em => normEmail
  | .ph => normPhone
  | .fn => lower
  | .ln => lower

/-- The hashing pattern of server.js lines 220-223:
`/^[a-f0-9]{64}$/.test(v) ? v : sha256(canon(v))`. -/
def hashToken (k : FieldKind) (v : String) : String :=
  if isHex64 v then v else sha256 (canon k v)

/- ======================= Timestamp clamping (server.js lines 72-79) ============== -/

/-- `safeEventTime`: `tIn = none` models a source timestamp whose parse is
not finite (`NaN`) or absent; otherwise `some t` is the parsed epoch
seconds. `now` is `Math.floor(Date.now() / 1000)`. -/
def safeEventTime (tIn : Option Int) (now : Int) : Int :=
  let t1 : Int := match tIn with
    | none => now
    | some t => if t > now then now else t
  if t1 < now - 7 * 24 * 60 * 60 then now else t1

/- ======================= Delivery client (server.js lines 97-113) ================ -/

/-- One HTTP response from the Meta endpoint. -/
structure MetaResponse where
  status : Nat
  body : String

/-- `fetch`'s `Response.ok`: status in the 2xx range. -/
def MetaResponse.isOk (r : MetaResponse) : Bool := 200 ≤ r.status && r.status ≤ 299

/-- Retry condition of `sendToMeta`: server error or rate limit. -/
def retryable (r : MetaResponse) : Bool := 500 ≤ r.status || r.status = 429

/-- Outcome of `sendToMeta`: the success value (the parsed response body,
modelled opaquely as the body text), the terminal `Meta error <status>: <body>`
throw, or the post-loop `Meta unknown error` throw. -/
inductive MetaResult where
  | success (json : String)
  | metaError (status : Nat) (body : String)
  | unknownError
deriving DecidableEq

/-- Does a delivery error carry the status code and response body? -/
def MetaResult.hasStatusBody : MetaResult → Bool
  | .metaError _ _ => true
  | _ => false

/-- Is a delivery outcome a success? -/
def MetaResult.isSuccess : MetaResult → Bool
  | .success _ => true
  | _ => false

/-- The retry loop of `sendToMeta`, over the remaining attempt numbers.
Returns the result, the number of attempts made, and the list of backoff
delays slept (in ms: `300 * attempt`, slept after every retryable failure,
including the last one). -/
def sendToMetaGo (responses : Nat → MetaResponse) : List Nat → MetaResult × Nat × List Nat
  | [] => (.unknownError, 0, [])
  | a :: rest =>
    let r := responses a
    if r.isOk then (.success r.body, 1, [])
    else if retryable r then
      let (res, n, ds) := sendToMetaGo responses rest
      (res, n + 1, (300 * a) :: ds)
    else (.metaError r.status r.body, 1, [])

/-- `sendToMeta` (server.js lines 97-113): `for (let attempt = 1; attempt <= 3; ...)`. -/
def sendToMeta (responses : Nat → MetaResponse) : MetaResult × Nat × List Nat :=
  sendToMetaGo responses [1, 2, 3]

/-- Attempt count of a delivery run. -/
def attemptsOf (responses : Nat → MetaResponse) : Nat := (sendToMeta responses).2.1

/- ======================= Param extraction (server.js lines 159-185) ============== -/

/-- Drop characters up to and past the first occurrence of `c`; `none` if absent. -/
def afterChar (c : Char) : List Char → Option (List Char)
  | [] => none
  | x :: xs => if x = c then some xs else afterChar c xs

/-- Characters before the first occurrence of `c`. -/
def upToChar (c : Char) (l : List Char) : List Char :=
  l.takeWhile (fun x => x ≠ c)

/-- Split a query string on `&` (models `URLSearchParams` pair splitting). -/
def splitAmp : List Char → List (List Char)
  | [] => [[]]
  | c :: cs =>
    if c = '&' then [] :: splitAmp cs
    else
      match splitAmp cs with
      | [] => [[c]]
      | h :: t => (c :: h) :: t

/-- The value of a `key=value` pair (empty when no `=`). -/
def pairVal (p : List Char) : List Char :=
  match afterChar '=' p with
  | none => []
  | some v => v

/-- Model of `new URL(s, "https://dummy/").searchParams.get(name)`: the first
pair whose key matches, in the portion after the first `?` that precedes any
`#`. Percent-decoding is not modelled (the tokens the bridge extracts are
plain), and the URL parse is assumed not to throw (with the dummy base it
succeeds on the inputs of interest). -/
def searchParamsGet (s name : List Char) : Option (List Char) :=
  match afterChar '?' (upToChar '#' s) with
  | none => none
  | some q =>
    (splitAmp q).findSome? fun p =>
      if upToChar '=' p = name then some (pairVal p) else none

/-- JavaScript `\s` (ASCII portion). -/
def isWs (c : Char) : Bool :=
  c = ' ' || c = '\t' || c = '\n' || c = '\r' || c = '\x0b' || c = '\x0c'

/-- Model of `s.match(new RegExp("[?&]" + name + "=([^&\\s]+)"))`: scan for a
`?` or `&` followed by `name=` and at least one character that is neither `&`
nor whitespace; capture the maximal such run. -/
def regexFind (name : List Char) : List Char → Option (List Char)
  | [] => none
  | c :: cs =>
    if (c = '?' || c = '&') && (name ++ ['=']).isPrefixOf cs then
      let v := (cs.drop (name.length + 1)).takeWhile (fun ch => ch ≠ '&' && !isWs ch)
      if v = [] then regexFind name cs else some v
    else regexFind name cs

/-- `extractParamFromAny` (server.js lines 159-168): URL query lookup first
(used only when its value is truthy), regex fallback second. -/
def extractParamFromAny (s : String) (name : String) : Option String :=
  if s = "" then none
  else
    match searchParamsGet s.data name.data with
    | some v => if v ≠ [] then some ⟨v⟩ else (regexFind name.data s.data).map (⟨·⟩)
    | none => (regexFind name.data s.data).map (⟨·⟩)

/-- `extractEidFromString` (server.js lines 169-171). -/
def extractEidFromString (s : String) : Option String :=
  extractParamFromAny s "eid"

/-- `extractFbcFromString` (server.js lines 172-182): `_fbc`/`fbc` if present,
else fabricate `fb.1.<epoch seconds>.<fbclid>` from a bare `fbclid`.
`nowSec` is `Math.floor(Date.now() / 1000)`. -/
def extractFbcFromString (s : String) (nowSec : Nat) : Option String :=
  match extractParamFromAny s "_fbc" with
  | some v => some v
  | none =>
    match extractParamFromAny s "fbc" with
    | some v => some v
    | none =>
      match extractParamFromAny s "fbclid" with
      | some clid => some ("fb.1." ++ toString nowSec ++ "." ++ clid)
      | none => none

/-- `extractFbpFromString` (server.js lines 183-185). -/
def extractFbpFromString (s : String) : Option String :=
  match extractParamFromAny s "_fbp" with
  | some v => some v
  | none => extractParamFromAny s "fbp"

/- ======================= Booking data model ======================= -/

/-- A client-info sub-record (`clientInfo` / `onlineBookingClientInfo`).
`""` models an absent field. -/
structure ClientInfo where
  email : String := ""
  phone : String := ""
  firstName : String := ""
  lastName : String := ""
  referrerUrl : String := ""
deriving DecidableEq

/-- A MangoMint appointment as consumed by the bridge. `""` models an
absent string field; `onlineBookingClientInfo`/`clientInfo` are objects,
so presence (`some`) is truthiness. `services` holds the service names. -/
structure Appt where
  onlineBookingClientInfo : Option ClientInfo := none
  referrerUrl : String := ""
  notes : String := ""
  clientNotes : String := ""
  source : String := ""
  createdByType : String := ""
  channel : String := ""
  metadataEid : String := ""
  metaEid : String := ""
  clientInfo : Option ClientInfo := none
  id : String := ""
  services : List String := []
deriving DecidableEq

/-- `extractReferrer` (server.js lines 151-158). -/
def extractReferrer (a : Appt) : String :=
  jsOr (match a.onlineBookingClientInfo with
        | some c => c.referrerUrl
        | none => "")
    (jsOr a.referrerUrl (jsOr a.notes a.clientNotes))

/-- `getEidFromAppointment` (server.js lines 186-188). -/
def getEidFromAppointment (a : Appt) : Option String :=
  if a.metadataEid ≠ "" then some a.metadataEid
  else if a.metaEid ≠ "" then some a.metaEid
  else extractEidFromString (extractReferrer a)

/-- `String.prototype.includes`: does `needle` occur in `hay`? -/
def containsSub (needle : List Char) : List Char → Bool
  | [] => needle.isEmpty
  | c :: cs => needle.isPrefixOf (c :: cs) || containsSub needle cs

/-- `isOnlineBooking` (server.js lines 189-194): `onlineBookingClientInfo`
is the only online signal; both branches of the source/channel scan return
`false`, faithfully reproduced. -/
def isOnlineBooking (a : Appt) : Bool :=
  if a.onlineBookingClientInfo.isSome then true
  else
    let src := toLowerStr (jsOr a.source (jsOr a.createdByType a.channel))
    if (containsSub "admin".data src.data || containsSub "manual".data src.data
        || containsSub "staff".data src.data) then false
    else false

/- ======================= IC cache (server.js lines 122-132) ======================= -/

/-- One `IC_CACHE` entry: the identity data stored by `icSet` plus the
insertion timestamp. `""` models an absent field. -/
structure ICEntry where
  fbp : String := ""
  fbc : String := ""
  em : String := ""
  ph : String := ""
  fn : String := ""
  ln : String := ""
  ts : Nat := 0
deriving DecidableEq

/-- The attribution window of server.js: 7 days in milliseconds. -/
def IC_TTL_MS : Nat := 7 * 24 * 60 * 60 * 1000

/-- The `IC_CACHE` map, as an association list with unique keys. -/
abbrev ICCache := List (String × ICEntry)

/-- `icSet` (server.js line 126): overwrite, stamping the current time. -/
def icSet (ic : ICCache) (eid : String) (d : ICEntry) (now : Nat) : ICCache :=
  (eid, { d with ts := now }) :: eraseKey ic eid

/-- `icGet` (server.js lines 127-132): lazy expiry — a hit older than the
window is evicted and reported missing. Returns the result and the
possibly-shrunk cache. -/
def icGet (ic : ICCache) (eid : String) (now : Nat) : Option ICEntry × ICCache :=
  match lookupKey ic eid with
  | none => (none, ic)
  | some v => if now - v.ts > IC_TTL_MS then (none, eraseKey ic eid) else (some v, ic)

/- ======================= Dedup cache (server.js lines 139-148) =================== -/

/-- The dedup window: 24 hours in milliseconds. -/
def SENT_TTL_MS : Nat := 24 * 60 * 60 * 1000

/-- The `SENT_CACHE` map: event id → timestamp of last successful delivery. -/
abbrev SentCache := List (String × Nat)

/-- `alreadySent` (server.js lines 142-147): `eventId && SENT_CACHE.get(eventId)`,
with lazy expiry of stale entries. Returns the verdict and the cache. -/
def alreadySent (sent : SentCache) (eventId : String) (now : Nat) : Bool × SentCache :=
  if eventId = "" then (false, sent)
  else
    match lookupKey sent eventId with
    | none => (false, sent)
    | some t =>
      if now - t > SENT_TTL_MS then (false, eraseKey sent eventId) else (true, sent)

/-- `markSent` (server.js line 148). -/
def markSent (sent : SentCache) (eventId : String) (now : Nat) : SentCache :=
  if eventId = "" then sent else (eventId, now) :: eraseKey sent eventId

/- ======================= User data & IC merge (server.js lines 195-205) ========== -/

/-- The outbound `user_data` bundle. `""` models an absent field. -/
structure UserData where
  client_ip_address : String := ""
  client_user_agent : String := ""
  fbp : String := ""
  fbc : String := ""
  em : String := ""
  ph : String := ""
  fn : String := ""
  ln : String := ""
deriving DecidableEq

/-- `buildUserDataFromIC` (server.js lines 195-205): merge the cached IC
entry (if an eid is known and the entry is fresh) into the fallback bundle,
never overwriting fields already present. Threads the cache because `icGet`
may evict. -/
def buildUserDataFromIC (ic : ICCache) (eid : Option String) (now : Nat)
    (fallback : UserData) : UserData × ICCache :=
  match eid with
  | none => (fallback, ic)
  | some e =>
    match icGet ic e now with
    | (none, ic') => (fallback, ic')
    | (some v, ic') =>
      let ud := fallback
      let ud := if v.fbp ≠ "" && ud.fbp = "" then { ud with fbp := v.fbp } else ud
      let ud := if v.fbc ≠ "" && ud.fbc = "" then { ud with fbc := v.fbc } else ud
      let ud := if v.em ≠ "" && ud.em = "" then { ud with em := v.em } else ud
      let ud := if v.ph ≠ "" && ud.ph = "" then { ud with ph := v.ph } else ud
      let ud := if v.fn ≠ "" && ud.fn = "" then { ud with fn := v.fn } else ud
      let ud := if v.ln ≠ "" && ud.ln = "" then { ud with ln := v.ln } else ud
      (ud, ic')

/- ======================= Secret check (server.js lines 293-310) ================== -/

/-- Which comparison primitive the secret check invokes. -/
inductive ComparePrim where
  | timingSafe
  | naiveEq
  | noCompare
deriving DecidableEq

/-- The hybrid secret check of both webhook handlers (server.js lines
293-310 and 374-387): header value compared with
`a.length === b.length && timingSafeEqual(a, b)`; query value compared with
`String(gotQuery) === String(WEBHOOK_SECRET)`. Returns the verdict and the
primitive used. `""` models an absent secret/credential. -/
def secretCheck (secret hdr qry : String) : Bool × ComparePrim :=
  if secret = "" then (true, .noCompare)
  else if hdr ≠ "" then
    (if hdr.length = secret.length then decide (hdr = secret) else false, .timingSafe)
  else if qry ≠ "" then
    (decide (qry = secret), .naiveEq)
  else (false, .noCompare)

/- ======================= Purchase payload (server.js lines 251-286) ============== -/

/-- `EVENT_SOURCE_URL_BOOK` default. -/
def EVENT_SOURCE_URL_BOOK : String := "https://altheatherapie.ca/en/book"

/-- The one outbound `Purchase` event of `mapAppointmentToPurchase`
(custom-data constants such as currency and the configured value are
environment plumbing and omitted; the fields the claims mention are kept). -/
structure PurchaseBody where
  event_id : String
  user_data : UserData
  event_time : Nat
  event_source_url : String
  content_name : String
deriving DecidableEq

/-- `mapAppointmentToPurchase` (server.js lines 251-286). `eidField` is the
`appt.__eid__` slot the handler wrote just before calling; `now` is
`Date.now()` in ms. -/
def mapAppointmentToPurchase (a : Appt) (eidField : String) (ud : UserData)
    (now : Nat) : PurchaseBody :=
  let serviceName := jsOr (a.services.headD "") "Appointment"
  let ref := extractReferrer a
  let srcUrl := if ref ≠ "" && startsWithStr ref "http" then ref else EVENT_SOURCE_URL_BOOK
  { event_id := jsOr eidField (jsOr a.id (toString now))
    user_data := ud
    event_time := now / 1000
    event_source_url := srcUrl
    content_name := serviceName }

/- ======================= Server state & requests ======================= -/

/-- The mutable state of the server: the two in-memory caches of server.js. -/
structure ServerState where
  ic : ICCache := []
  sent : SentCache := []
deriving DecidableEq

/-- An inbound `/webhooks/mangomint` call. `payload = none` models a body
with no (truthy) `appointment`, including an unparseable body resolved by
`|| {}`. `""` models an absent header/query credential. -/
structure MMRequest where
  headerSecret : String := ""
  querySecret : String := ""
  payload : Option Appt := none
  ip : String := ""
  ua : String := ""
deriving DecidableEq

/-- Responses of the `/webhooks/mangomint` handler; every constructor but
`unauthorized` is served with HTTP 200. -/
inductive MMResp where
  | unauthorized
  | noAppt
  | manualBooking
  | noAttribution
  | duplicateEvent
  | okDelivered (meta : String)
  | errorAck (err : MetaResult)
deriving DecidableEq

/-- HTTP status of a `/webhooks/mangomint` response. -/
def MMResp.httpStatus : MMResp → Nat
  | .unauthorized => 401
  | _ => 200

/-- The `baseUD` bundle of server.js lines 325-332: request ip/user-agent
plus the hashed client PII from `clientInfo || onlineBookingClientInfo || {}`. -/
def baseUserData (a : Appt) (ip ua : String) : UserData :=
  let cli := (a.clientInfo.getD (a.onlineBookingClientInfo.getD {}))
  let ud : UserData := { client_ip_address := ip, client_user_agent := jsOr ua "unknown" }
  let ud := if cli.email ≠ "" then { ud with em := sha256 (normEmail cli.email) } else ud
  let ud := if cli.phone ≠ "" then { ud with ph := sha256 (normPhone cli.phone) } else ud
  let ud := if cli.firstName ≠ "" then { ud with fn := sha256 (lower cli.firstName) } else ud
  let ud := if cli.lastName ≠ "" then { ud with ln := sha256 (lower cli.lastName) } else ud
  ud

/-- The merged `user_data` of the mangomint handler (server.js lines
334-339): IC merge, then `fbc`/`fbp` recovered from the referrer/notes. -/
def mangledUserData (a : Appt) (ic : ICCache) (ip ua : String) (now : Nat) :
    UserData × ICCache :=
  let ref := extractReferrer a
  let eid := getEidFromAppointment a
  let (ud0, ic') := buildUserDataFromIC ic eid now (baseUserData a ip ua)
  let ud1 := if ud0.fbc = "" then
      match extractFbcFromString ref (now / 1000) with
      | some f => { ud0 with fbc := f }
      | none => ud0
    else ud0
  let ud2 := if ud1.fbp = "" then
      match extractFbpFromString ref with
      | some f => { ud1 with fbp := f }
      | none => ud1
    else ud1
  (ud2, ic')

/-- `!!(eid || user_data.fbc || user_data.fbp)` (server.js line 341). -/
def hasMetaAttribution (a : Appt) (ud : UserData) : Bool :=
  (getEidFromAppointment a).isSome || ud.fbc ≠ "" || ud.fbp ≠ ""

/-- `appt.__eid__ = eid || String(appt.id || Date.now())` (server.js line 348). -/
def resolveEventId (a : Appt) (now : Nat) : String :=
  match getEidFromAppointment a with
  | some e => e
  | none => jsOr a.id (toString now)

/-- Outcome of one handler run: the HTTP response, the post state, the
number of outbound delivery attempts made, and the payload handed to
`sendToMeta` when a send was attempted. -/
structure MMOutcome where
  resp : MMResp
  state : ServerState
  attempts : Nat
  outbound : Option PurchaseBody
deriving DecidableEq

/-- The `/webhooks/mangomint` handler (server.js lines 289-365): secret
check → appointment presence → online classification → attribution merge
and requirement → dedup check → build → deliver → `markSent` on success
only; a delivery error is caught and acknowledged with HTTP 200. -/
def handleMangomint (secret : String) (req : MMRequest) (st : ServerState)
    (now : Nat) (responses : Nat → MetaResponse) : MMOutcome :=
  if !(secretCheck secret req.headerSecret req.querySecret).1 then
    { resp := .unauthorized, state := st, attempts := 0, outbound := none }
  else
    match req.payload with
    | none => { resp := .noAppt, state := st, attempts := 0, outbound := none }
    | some appt =>
      if !isOnlineBooking appt then
        { resp := .manualBooking, state := st, attempts := 0, outbound := none }
      else
        let (ud, ic') := mangledUserData appt st.ic req.ip req.ua now
        if !hasMetaAttribution appt ud then
          { resp := .noAttribution, state := { st with ic := ic' },
            attempts := 0, outbound := none }
        else
          let eventId := resolveEventId appt now
          let (dup, sent') := alreadySent st.sent eventId now
          if dup then
            { resp := .duplicateEvent, state := { ic := ic', sent := sent' },
              attempts := 0, outbound := none }
          else
            let body := mapAppointmentToPurchase appt eventId ud now
            let (res, n, _) := sendToMeta responses
            match res with
            | .success j =>
              { resp := .okDelivered j,
                state := { ic := ic', sent := markSent sent' eventId now },
                attempts := n, outbound := some body }
            | e =>
              { resp := .errorAck e, state := { ic := ic', sent := sent' },
                attempts := n, outbound := some body }

/- ======================= /webhooks intent handler (server.js 208-248) ============ -/

/-- An inbound `/webhooks` (intent) call from the website. `""` models an
absent field; `user_data` fields may be raw or pre-hashed. -/
structure ICRequest where
  event_name : String := ""
  event_id : String := ""
  event_source_url : String := ""
  ud_fbp : String := ""
  ud_fbc : String := ""
  ud_em : String := ""
  ud_ph : String := ""
  ud_fn : String := ""
  ud_ln : String := ""
  ip : String := ""
  ua : String := ""
deriving DecidableEq

/-- The outbound intent event (no `custom_data`, per the source comment). -/
structure ICBody where
  event_name : String
  event_time : Nat
  event_source_url : String
  event_id : String
  user_data : UserData
deriving DecidableEq

/-- Responses of the `/webhooks` handler: HTTP 200 on success, HTTP 500
from the catch handler (server.js lines 244-247). -/
inductive ICResp where
  | ok200 (meta : String)
  | err500 (err : MetaResult)
deriving DecidableEq

/-- HTTP status of a `/webhooks` response. -/
def ICResp.httpStatus : ICResp → Nat
  | .ok200 _ => 200
  | .err500 _ => 500

/-- The `user_data` built by the intent handler (server.js lines 214-223),
using the idempotent hashing pattern on each PII field. -/
def icUserData (req : ICRequest) : UserData :=
  let ud : UserData :=
    { client_ip_address := req.ip, client_user_agent := jsOr req.ua "unknown" }
  let ud := if req.ud_fbp ≠ "" then { ud with fbp := req.ud_fbp } else ud
  let ud := if req.ud_fbc ≠ "" then { ud with fbc := req.ud_fbc } else ud
  let ud := if req.ud_em ≠ "" then { ud with em := hashToken .em req.ud_em } else ud
  let ud := if req.ud_ph ≠ "" then { ud with ph := hashToken .ph req.ud_ph } else ud
  let ud := if req.ud_fn ≠ "" then { ud with fn := hashToken .fn req.ud_fn } else ud
  let ud := if req.ud_ln ≠ "" then { ud with ln := hashToken .ln req.ud_ln } else ud
  ud

/-- Outcome of one intent-handler run. -/
structure ICOutcome where
  resp : ICResp
  state : ServerState
  attempts : Nat
  outbound : ICBody
deriving DecidableEq

/-- The `/webhooks` handler (server.js lines 208-248): hash the identity
bundle, cache it under `event_id` (before delivery), deliver the intent
event; a delivery error reaches the catch handler, which answers HTTP 500. -/
def handleWebhooksIC (req : ICRequest) (st : ServerState) (now : Nat)
    (responses : Nat → MetaResponse) : ICOutcome :=
  let ud := icUserData req
  let entry : ICEntry :=
    { fbp := ud.fbp, fbc := ud.fbc, em := ud.em, ph := ud.ph,
      fn := ud.fn, ln := ud.ln }
  let st' :=
    if req.event_id ≠ "" then
      { st with ic := icSet st.ic req.event_id entry now }
    else st
  let body : ICBody :=
    { event_name := jsOr req.event_name "InitiateCheckout"
      event_time := now / 1000
      event_source_url := jsOr req.event_source_url EVENT_SOURCE_URL_BOOK
      event_id := req.event_id
      user_data := ud }
  let (res, n, _) := sendToMeta responses
  match res with
  | .success j => { resp := .ok200 j, state := st', attempts := n, outbound := body }
  | e => { resp := .err500 e, state := st', attempts := n, outbound := body }

/- ======================= /webhooks/sale handler (server.js 371-396) ============== -/

/-- Responses of the `/webhooks/sale` handler. -/
inductive SaleResp where
  | unauthorized
  | okSkipped
deriving DecidableEq

/-- HTTP status of a `/webhooks/sale` response. -/
def SaleResp.httpStatus : SaleResp → Nat
  | .unauthorized => 401
  | .okSkipped => 200

/-- The `/webhooks/sale` handler (server.js lines 371-396): secret check,
then a deliberate no-op acknowledgement; no delivery is ever attempted. -/
def handleSale (secret : String) (hdr qry : String) : SaleResp × Nat :=
  if !(secretCheck secret hdr qry).1 then (.unauthorized, 0)
  else (.okSkipped, 0)

/- ======================= Concrete test fixtures ======================= -/

/-- Fixture: an online booking carrying attribution key `E1` in metadata. -/
def apptE1 : Appt := { onlineBookingClientInfo := some {}, metadataEid := "E1" }

/-- Fixture: an online booking whose referrer carries only an `fbclid`. -/
def apptFbclid : Appt :=
  { onlineBookingClientInfo :=
      some { referrerUrl := "https://altheatherapie.ca/en/book?fbclid=ABC123" } }

/-- Fixture: a booking webhook request wrapping an appointment, no credential. -/
def mmReq (a : Appt) : MMRequest := { payload := some a }

/- ======================= PII index (src/unnamed/part_005, lines 141-185) ========= -/

/-- One PII-index entry: an attribution key with its registration time. -/
structure PiiCand where
  eid : String
  ts : Nat
deriving DecidableEq

/-- One of the three PII maps: hashed field → candidate list. -/
abbrev PiiMap := List (String × List PiiCand)

/-- `PII_INDEX` of part_005: maps for hashed email, hashed phone, and the
combined-name hash. -/
structure PiiIndex where
  em : PiiMap := []
  ph : PiiMap := []
  nm : PiiMap := []
deriving DecidableEq

/-- The attribution window of part_005: `PII_TTL_MS = IC_TTL_MS = 6h`. -/
def PII_TTL_MS : Nat := 6 * 60 * 60 * 1000

/-- One map's share of `piiclean`: keep entries with `x.ts >= now - TTL`,
dropping keys whose candidate list empties. -/
def cleanPiiMap (now : Nat) : PiiMap → PiiMap
  | [] => []
  | kv :: rest =>
    let next := kv.2.filter (fun x => now - PII_TTL_MS ≤ x.ts)
    if next.isEmpty then cleanPiiMap now rest
    else (kv.1, next) :: cleanPiiMap now rest

/-- `piiclean` (part_005 lines 147-155). -/
def piiclean (idx : PiiIndex) (now : Nat) : PiiIndex :=
  { em := cleanPiiMap now idx.em
    ph := cleanPiiMap now idx.ph
    nm := cleanPiiMap now idx.nm }

/-- `piiadd` (part_005 lines 156-160): append `{eid, ts: now}` under `key`. -/
def piiadd (m : PiiMap) (key eid : String) (now : Nat) : PiiMap :=
  if key = "" || eid = "" then m
  else (key, ((lookupKey m key).getD []) ++ [⟨eid, now⟩]) :: eraseKey m key

/-- `piiindexFromUD` (part_005 lines 161-167). -/
def piiindexFromUD (idx : PiiIndex) (eid : String) (ud : UserData)
    (now : Nat) : PiiIndex :=
  let idx := if ud.em ≠ "" then { idx with em := piiadd idx.em ud.em eid now } else idx
  let idx := if ud.ph ≠ "" then { idx with ph := piiadd idx.ph ud.ph eid now } else idx
  let idx := if ud.fn ≠ "" && ud.ln ≠ "" then
      { idx with nm := piiadd idx.nm (sha256 (ud.fn ++ ud.ln)) eid now }
    else idx
  piiclean idx now

/-- The client sub-record the booking webhook of part_005 matches on. -/
structure P5Client where
  email : String := ""
  phone : String := ""
  firstName : String := ""
  lastName : String := ""
deriving DecidableEq

/-- Candidate lists read from one PII map (absent key → no candidates). -/
def piiLookup (m : PiiMap) : Option String → List PiiCand
  | none => []
  | some k => (lookupKey m k).getD []

/-- The supplied hashed email key of `piimatchFromClient`. -/
def suppliedEm (cli : P5Client) : Option String :=
  if cli.email ≠ "" then some (sha256 (normEmail cli.email)) else none

/-- The supplied hashed phone key of `piimatchFromClient`. -/
def suppliedPh (cli : P5Client) : Option String :=
  if cli.phone ≠ "" then some (sha256 (normPhone cli.phone)) else none

/-- The supplied combined-name key of `piimatchFromClient`
(`sha256(hash(fn) + hash(ln))`, needing both names). -/
def suppliedNm (cli : P5Client) : Option String :=
  if cli.firstName ≠ "" && cli.lastName ≠ "" then
    some (sha256 (sha256 (lower cli.firstName) ++ sha256 (lower cli.lastName)))
  else none

/-- The candidate pool of `piimatchFromClient` (part_005 lines 176-181):
after `piiclean`, the concatenation of the matches of each supplied key. -/
def gatherCandidates (cli : P5Client) (idx : PiiIndex) (now : Nat) : List PiiCand :=
  let idx' := piiclean idx now
  piiLookup idx'.em (suppliedEm cli) ++ piiLookup idx'.ph (suppliedPh cli)
    ++ piiLookup idx'.nm (suppliedNm cli)

/-- Head of the stable descending-by-`ts` sort of part_005 line 183: the
earliest-listed candidate of maximal timestamp. -/
def bestCand : List PiiCand → Option PiiCand
  | [] => none
  | c :: rest =>
    match bestCand rest with
    | none => some c
    | some b => if b.ts > c.ts then some b else some c

/-- `piimatchFromClient` (part_005 lines 169-184): hash the supplied client
fields, clean the index, pool the per-field matches, and return the most
recent candidate's key (`candidates[0]?.eid || null`). Returns the cleaned
index as the post state. -/
def piimatchFromClient (cli : P5Client) (idx : PiiIndex) (now : Nat) :
    Option String × PiiIndex :=
  let cands := gatherCandidates cli idx now
  match bestCand cands with
  | none => (none, piiclean idx now)
  | some c => (if c.eid = "" then none else some c.eid, piiclean idx now)

/- ======================= Basic lemmas ======================= -/

theorem lookupKey_cons_self {β : Type} (v : β) (l : List (String × β)) (k : String) :
    lookupKey ((k, v) :: l) k = some v := by
  simp [lookupKey]

theorem lookupKey_eraseKey_self {β : Type} (l : List (String × β)) (k : String) :
    lookupKey (eraseKey l k) k = none := by
  induction l with
  | nil => rfl
  | cons p rest ih =>
    by_cases h : p.1 = k
    · simpa [eraseKey, h] using (by simpa [eraseKey] using ih)
    · simp [eraseKey, lookupKey, h] at ih ⊢
      simpa [eraseKey] using ih

/-- C4: `isOnlineBooking` is exactly the presence of the explicit
online-booking signal: true whenever `onlineBookingClientInfo` is present,
regardless of the source/channel/creator-type string, and false for every
record lacking it — including records whose channel string contains a
manual/admin/staff marker and records with no marker at all. -/
theorem c4_fail_closed_classification (a : Appt) :
    isOnlineBooking a = a.onlineBookingClientInfo.isSome := by
  unfold isOnlineBooking
  cases h : a.onlineBookingClientInfo <;> simp [h]

/-- C8: the timestamp clamping rule — a non-finite parse yields the current
time, a future value clamps to now, a value older than the 7-day look-back
clamps to now, and an in-window past value passes through unchanged. -/
theorem c8_timestamp_clamping (now : Int) :
    safeEventTime none now = now ∧
    (∀ t : Int, t > now → safeEventTime (some t) now = now) ∧
    (∀ t : Int, t < now - 7 * 24 * 60 * 60 → safeEventTime (some t) now = now) ∧
    (∀ t : Int, now - 7 * 24 * 60 * 60 ≤ t → t ≤ now → safeEventTime (some t) now = t) := by
  refine ⟨?_, ?_, ?_, ?_⟩
  · simp only [safeEventTime]
    split <;> omega
  · intro t ht
    simp only [safeEventTime]
    split <;> (try split) <;> omega
  · intro t ht
    simp only [safeEventTime]
    split <;> (try split) <;> omega
  · intro t h1 h2
    simp only [safeEventTime]
    split <;> (try split) <;> omega

/-- Concrete instance of C8: with `now = 1000000`, a future timestamp and a
30-days-old timestamp clamp to now, and a one-hour-old timestamp passes. -/
theorem c8_timestamp_clamping_witness :
    safeEventTime none 1000000 = 1000000 ∧
    safeEventTime (some 1003600) 1000000 = 1000000 ∧
    safeEventTime (some 0) 1000000 = 1000000 ∧
    safeEventTime (some 996400) 1000000 = 996400 := by
  obtain ⟨h1, h2, h3, h4⟩ := c8_timestamp_clamping 1000000
  exact ⟨h1, h2 1003600 (by decide), h3 0 (by decide), h4 996400 (by decide) (by decide)⟩

/- ======================= C5: idempotent hashing ======================= -/

theorem hexChar_isHexLower : ∀ m : Nat, m < 16 → isHexLowerChar (hexChar m) = true := by
  decide

theorem isHex64_hexDigest64 (n : Nat) : isHex64 (hexDigest64 n) = true := by
  unfold isHex64 hexDigest64
  rw [Bool.and_eq_true]
  constructor
  · simp [String.length]
  · rw [List.all_eq_true]
    intro c hc
    simp only [String.data] at hc
    obtain ⟨i, _, rfl⟩ := List.mem_map.mp hc
    exact hexChar_isHexLower _ (Nat.mod_lt _ (by norm_num))

theorem isHex64_sha256 (s : String) : isHex64 (sha256 s) = true :=
  isHex64_hexDigest64 _

/-- C5: hashing of identity fields is idempotent — an input already matching
the 64-character lowercase-hex digest pattern is returned unchanged, every
digest the function produces matches that pattern, and hence
`hashToken(kind, hashToken(kind, v)) = hashToken(kind, v)` for every kind
and value. -/
theorem c5_idempotent_hashing :
    (∀ (k : FieldKind) (v : String), hashToken k (hashToken k v) = hashToken k v) ∧
    (∀ (k : FieldKind) (v : String), isHex64 v = true → hashToken k v = v) ∧
    (∀ s : String, isHex64 (sha256 s) = true) := by
  have hpass : ∀ (k : FieldKind) (v : String), isHex64 v = true → hashToken k v = v := by
    intro k v h
    unfold hashToken
    rw [h]
    rfl
  refine ⟨?_, hpass, isHex64_sha256⟩
  intro k v
  by_cases h : isHex64 v = true
  · rw [hpass k v h]
    exact hpass k v h
  · have hv : hashToken k v = sha256 (canon k v) := by
      unfold hashToken
      rw [Bool.not_eq_true] at h
      rw [h]
      rfl
    rw [hv]
    exact hpass k _ (isHex64_sha256 _)

/-- Concrete instance of C5: double hashing of a raw email equals single
hashing, and a pre-hashed 64-hex value passes through unchanged. -/
theorem c5_idempotent_hashing_witness :
    hashToken .em (hashToken .em " A@B.c ") = hashToken .em " A@B.c " ∧
    hashToken .ph
        "aaaaaaaaaaaaaaaaaaaaaaaaaaaaaaaaaaaaaaaaaaaaaaaaaaaaaaaaaaaaaaaa" =
      "aaaaaaaaaaaaaaaaaaaaaaaaaaaaaaaaaaaaaaaaaaaaaaaaaaaaaaaaaaaaaaaa" ∧
    isHex64 (sha256 "x") = true :=
  ⟨c5_idempotent_hashing.1 .em " A@B.c ",
   c5_idempotent_hashing.2.1 .ph _ (by decide),
   c5_idempotent_hashing.2.2 "x"⟩

/- ======================= C3: retry policy ======================= -/

theorem sendToMetaGo_attempts_le (responses : Nat → MetaResponse) :
    ∀ l : List Nat, (sendToMetaGo responses l).2.1 ≤ l.length := by
  intro l
  induction l with
  | nil => simp [sendToMetaGo]
  | cons a rest ih =>
    simp only [sendToMetaGo]
    split
    · simp
    · split
      · simpa using Nat.succ_le_succ ih
      · simp

/-- C3 (counterexample to the claim as stated): facing three consecutive 503
responses, the delivery client makes exactly 3 attempts and then raises the
generic `Meta unknown error` — an error that does NOT carry the status code
and response body, contrary to the claim. -/
theorem c3_retry_policy_counterexample :
    (sendToMeta (fun _ => ⟨503, "boom"⟩)).1 = MetaResult.unknownError ∧
    (sendToMeta (fun _ => ⟨503, "boom"⟩)).2.1 = 3 ∧
    MetaResult.hasStatusBody (sendToMeta (fun _ => ⟨503, "boom"⟩)).1 = false := by
  decide

/-- C3 (amended): at most 3 attempts; a success on the first response returns
the parsed body after 1 attempt; a non-retryable non-success status
terminates after 1 attempt with an error carrying the status and body; a
retryable status (≥500 or 429) is followed by another attempt after a
linearly increasing backoff (300ms × attempt number); three consecutive
retryable responses exhaust the 3 attempts (with backoffs 300, 600, 900 ms)
and raise the generic `Meta unknown error`, which carries no status or body. -/
theorem c3_retry_policy :
    (∀ responses : Nat → MetaResponse, (sendToMeta responses).2.1 ≤ 3) ∧
    (∀ responses : Nat → MetaResponse, (responses 1).isOk = true →
      sendToMeta responses = (.success (responses 1).body, 1, [])) ∧
    (∀ responses : Nat → MetaResponse,
      (responses 1).isOk = false → retryable (responses 1) = false →
      sendToMeta responses = (.metaError (responses 1).status (responses 1).body, 1, [])) ∧
    (∀ responses : Nat → MetaResponse,
      (responses 1).isOk = false → retryable (responses 1) = true →
      (responses 2).isOk = true →
      sendToMeta responses = (.success (responses 2).body, 2, [300])) ∧
    (∀ responses : Nat → MetaResponse,
      ((responses 1).isOk = false ∧ retryable (responses 1) = true) →
      ((responses 2).isOk = false ∧ retryable (responses 2) = true) →
      ((responses 3).isOk = false ∧ retryable (responses 3) = true) →
      sendToMeta responses = (.unknownError, 3, [300, 600, 900]) ∧
        MetaResult.hasStatusBody (sendToMeta responses).1 = false) := by
  refine ⟨fun r => sendToMetaGo_attempts_le r [1, 2, 3], ?_, ?_, ?_, ?_⟩
  · intro r h1
    simp [sendToMeta, sendToMetaGo, h1]
  · intro r h1 h2
    simp [sendToMeta, sendToMetaGo, h1, h2]
  · intro r h1 h2 h3
    simp [sendToMeta, sendToMetaGo, h1, h2, h3]
  · intro r ⟨h1, h2⟩ ⟨h3, h4⟩ ⟨h5, h6⟩
    have : sendToMeta r = (.unknownError, 3, [300, 600, 900]) := by
      simp [sendToMeta, sendToMetaGo, h1, h2, h3, h4, h5, h6]
    exact ⟨this, by rw [this]; rfl⟩

/-- Concrete instance of C3 (amended): a 200 delivers in one attempt; a 404
raises immediately with status and body after exactly 1 attempt; a 503 then
a 200 retries once; three 503s exhaust the 3 attempts. -/
theorem c3_retry_policy_witness :
    sendToMeta (fun _ => ⟨200, "okbody"⟩) = (.success "okbody", 1, []) ∧
    sendToMeta (fun _ => ⟨404, "missing"⟩) = (.metaError 404 "missing", 1, []) ∧
    sendToMeta (fun i => if i = 1 then ⟨503, "s"⟩ else ⟨200, "later"⟩) =
      (.success "later", 2, [300]) ∧
    sendToMeta (fun _ => ⟨503, "down"⟩) = (.unknownError, 3, [300, 600, 900]) :=
  ⟨c3_retry_policy.2.1 _ (by decide),
   c3_retry_policy.2.2.1 _ (by decide) (by decide),
   c3_retry_policy.2.2.2.1 _ (by decide) (by decide) (by decide),
   (c3_retry_policy.2.2.2.2 _ ⟨by decide, by decide⟩ ⟨by decide, by decide⟩
     ⟨by decide, by decide⟩).1⟩

/- ======================= C6: attribution TTL ======================= -/

/-- C6: an attribution record inserted at time `T` under key `e` is returned
by a `get` at any time strictly before `T + window`; a `get` at any time
after `T + window` reports not-found and evicts the entry, so a subsequent
`get` of the same key (at any time) also reports not-found. -/
theorem c6_attribution_ttl (ic : ICCache) (e : String) (d : ICEntry) (T now now2 : Nat) :
    (now < T + IC_TTL_MS → (icGet (icSet ic e d T) e now).1 = some { d with ts := T }) ∧
    (now > T + IC_TTL_MS →
      (icGet (icSet ic e d T) e now).1 = none ∧
      lookupKey (icGet (icSet ic e d T) e now).2 e = none ∧
      (icGet (icGet (icSet ic e d T) e now).2 e now2).1 = none) := by
  have hlook : lookupKey (icSet ic e d T) e = some { d with ts := T } :=
    lookupKey_cons_self _ _ _
  constructor
  · intro h
    unfold icGet
    rw [hlook]
    dsimp only
    rw [if_neg (by omega : ¬(now - T > IC_TTL_MS))]
  · intro h
    have hget : icGet (icSet ic e d T) e now = (none, eraseKey (icSet ic e d T) e) := by
      unfold icGet
      rw [hlook]
      dsimp only
      rw [if_pos (by omega : now - T > IC_TTL_MS)]
    have herase : lookupKey (eraseKey (icSet ic e d T) e) e = none :=
      lookupKey_eraseKey_self _ _
    refine ⟨by rw [hget], by rw [hget]; exact herase, ?_⟩
    rw [hget]
    unfold icGet
    rw [herase]

/-- Concrete instance of C6: a record inserted at `T = 0` is found 1 ms
later, and is gone (with its entry evicted) one ms past the 7-day window. -/
theorem c6_attribution_ttl_witness :
    (icGet (icSet [] "k" {} 0) "k" 1).1 = some { (({} : ICEntry)) with ts := 0 } ∧
    (icGet (icSet [] "k" {} 0) "k" 604800001).1 = none ∧
    (icGet (icGet (icSet [] "k" {} 0) "k" 604800001).2 "k" 604800002).1 = none := by
  obtain ⟨h1, h2⟩ := c6_attribution_ttl [] "k" {} 0 604800001 604800002
  obtain ⟨ha, _, hc⟩ := h2 (by decide)
  exact ⟨(c6_attribution_ttl [] "k" {} 0 1 0).1 (by decide), ha, hc⟩

/- ======================= C9: secret comparison primitives ======================= -/

/-- C9 (the code at the failing input): when the shared secret arrives via
the query-parameter channel, the handler's check compares it with naive
string equality (`===`), not the fixed-time byte compare; only the header
channel uses `timingSafeEqual`. The claim that every accepted credential
channel uses a constant-time comparison is violated by the query path. -/
theorem c9_query_path_uses_naive_equality :
    secretCheck "s3cret" "" "s3cret" = (true, ComparePrim.naiveEq) ∧
    secretCheck "s3cret" "s3cret" "" = (true, ComparePrim.timingSafe) ∧
    ComparePrim.naiveEq ≠ ComparePrim.timingSafe := by
  decide

/- ======================= C7: PII fallback lookup ======================= -/

theorem bestCand_eq_none {l : List PiiCand} (h : bestCand l = none) : l = [] := by
  cases l with
  | nil => rfl
  | cons a rest =>
    exfalso
    simp only [bestCand] at h
    cases hb : bestCand rest <;> rw [hb] at h <;> simp at h
    split at h <;> simp at h

theorem bestCand_spec : ∀ (l : List PiiCand) (c : PiiCand), bestCand l = some c →
    c ∈ l ∧ ∀ c' ∈ l, c'.ts ≤ c.ts := by
  intro l
  induction l with
  | nil => intro c h; simp [bestCand] at h
  | cons a rest ih =>
    intro c h
    simp only [bestCand] at h
    cases hb : bestCand rest with
    | none =>
      rw [hb] at h
      dsimp only at h
      have hrest := bestCand_eq_none hb
      subst hrest
      have hc : a = c := Option.some.inj h
      rw [← hc]
      constructor
      · exact List.mem_singleton.mpr rfl
      · intro c' hc'
        rw [List.mem_singleton.mp hc']
    | some b =>
      rw [hb] at h
      dsimp only at h
      obtain ⟨hbmem, hbmax⟩ := ih b hb
      by_cases hcmp : b.ts > a.ts
      · rw [if_pos hcmp] at h
        have hc : b = c := Option.some.inj h
        rw [← hc]
        refine ⟨List.mem_cons_of_mem a hbmem, ?_⟩
        intro c' hc'
        rcases List.mem_cons.mp hc' with h' | h'
        · rw [h']
          omega
        · exact hbmax c' h'
      · rw [if_neg hcmp] at h
        have hc : a = c := Option.some.inj h
        rw [← hc]
        refine ⟨List.mem_cons_self a rest, ?_⟩
        intro c' hc'
        rcases List.mem_cons.mp hc' with h' | h'
        · rw [h']
        · have := hbmax c' h'
          omega

theorem mem_cleanPiiMap_fresh (now : Nat) :
    ∀ (m : PiiMap) (k : String) (arr : List PiiCand),
      lookupKey (cleanPiiMap now m) k = some arr →
      ∀ x ∈ arr, now - PII_TTL_MS ≤ x.ts := by
  intro m
  induction m with
  | nil => intro k arr h; simp [cleanPiiMap, lookupKey] at h
  | cons kv rest ih =>
    intro k arr h
    simp only [cleanPiiMap] at h
    split at h
    · exact ih k arr h
    · simp only [lookupKey] at h
      split at h
      · simp only [Option.some.injEq] at h
        subst h
        intro x hx
        have := List.mem_filter.mp hx
        exact of_decide_eq_true this.2
      · exact ih k arr h

theorem mem_piiLookup_clean_fresh (now : Nat) (m : PiiMap) (k? : Option String) :
    ∀ x ∈ piiLookup (cleanPiiMap now m) k?, now - PII_TTL_MS ≤ x.ts := by
  intro x hx
  cases k? with
  | none => simp [piiLookup] at hx
  | some k =>
    simp only [piiLookup] at hx
    cases hl : lookupKey (cleanPiiMap now m) k with
    | none => rw [hl] at hx; simp at hx
    | some arr =>
      rw [hl] at hx
      exact mem_cleanPiiMap_fresh now m k arr hl x hx

theorem mem_gatherCandidates_fresh (cli : P5Client) (idx : PiiIndex) (now : Nat) :
    ∀ c ∈ gatherCandidates cli idx now, now - PII_TTL_MS ≤ c.ts := by
  intro c hc
  unfold gatherCandidates piiclean at hc
  rcases List.mem_append.mp hc with h | h
  · rcases List.mem_append.mp h with h' | h'
    · exact mem_piiLookup_clean_fresh now idx.em _ c h'
    · exact mem_piiLookup_clean_fresh now idx.ph _ c h'
  · exact mem_piiLookup_clean_fresh now idx.nm _ c h

/-- C7: whenever the PII-fallback lookup returns an attribution key, that
key comes from a candidate in the pool gathered from the supplied hashed
fields (hashed email, hashed phone, combined-name hash) of the cleaned
index — so it matches at least one supplied field and was registered within
the attribution window — and that candidate's registration timestamp is
maximal among all pooled candidates; an index entry older than the window is
never returned, having been evicted by `piiclean` before matching. -/
theorem c7_pii_fallback_lookup (cli : P5Client) (idx : PiiIndex) (now : Nat) (e : String)
    (h : (piimatchFromClient cli idx now).1 = some e) :
    ∃ c ∈ gatherCandidates cli idx now,
      c.eid = e ∧ now - c.ts ≤ PII_TTL_MS ∧
      ∀ c' ∈ gatherCandidates cli idx now, c'.ts ≤ c.ts := by
  unfold piimatchFromClient at h
  dsimp only at h
  cases hb : bestCand (gatherCandidates cli idx now) with
  | none => rw [hb] at h; simp at h
  | some c =>
    rw [hb] at h
    dsimp only at h
    split at h
    · simp at h
    · simp only [Option.some.injEq] at h
      obtain ⟨hmem, hmax⟩ := bestCand_spec _ c hb
      have hfresh := mem_gatherCandidates_fresh cli idx now c hmem
      exact ⟨c, hmem, h, by omega, hmax⟩

/-- Concrete instance of C7: with two index entries sharing the client's
hashed email, the lookup returns the more recent key. -/
theorem c7_pii_fallback_lookup_witness :
    ∃ c ∈ gatherCandidates { email := "a@b.c" }
        { em := [(sha256 (normEmail "a@b.c"), [⟨"k1", 100⟩, ⟨"k2", 200⟩])] } 300,
      c.eid = "k2" ∧ 300 - c.ts ≤ PII_TTL_MS ∧
      ∀ c' ∈ gatherCandidates { email := "a@b.c" }
          { em := [(sha256 (normEmail "a@b.c"), [⟨"k1", 100⟩, ⟨"k2", 200⟩])] } 300,
        c'.ts ≤ c.ts :=
  c7_pii_fallback_lookup { email := "a@b.c" }
    { em := [(sha256 (normEmail "a@b.c"), [⟨"k1", 100⟩, ⟨"k2", 200⟩])] } 300 "k2"
    (by decide)

/- ======================= C2: error propagation policy ======================= -/

/-- C2 (counterexample to the claim as stated): on the intent webhook
surface, a delivery-path failure (three 503 responses, retry exhaustion)
produces an HTTP 500 error response to the caller — not a non-error
acknowledgement, and not an authentication rejection. -/
theorem c2_propagation_counterexample :
    ICResp.httpStatus (handleWebhooksIC {} {} 0 (fun _ => ⟨503, "down"⟩)).resp = 500 ∧
    (500 : Nat) ≠ 200 ∧ (500 : Nat) ≠ 401 := by
  decide

/-- C2 (amended): on the booking webhook surface (`/webhooks/mangomint`)
and the sale surface (`/webhooks/sale`), no input — including any
delivery-path failure — produces an error-status response other than the
explicit 401 authentication rejection, which occurs exactly when the secret
check fails; on the intent surface (`/webhooks`), however, a delivery-path
failure is answered with HTTP 500 (success with 200). -/
theorem c2_error_propagation_policy :
    (∀ (secret : String) (req : MMRequest) (st : ServerState) (now : Nat)
        (responses : Nat → MetaResponse),
      (handleMangomint secret req st now responses).resp.httpStatus = 200 ∨
        (handleMangomint secret req st now responses).resp.httpStatus = 401) ∧
    (∀ (secret : String) (req : MMRequest) (st : ServerState) (now : Nat)
        (responses : Nat → MetaResponse),
      ((handleMangomint secret req st now responses).resp = .unauthorized ↔
        (secretCheck secret req.headerSecret req.querySecret).1 = false)) ∧
    (∀ secret hdr qry : String,
      ((handleSale secret hdr qry).1 = .unauthorized ↔
        (secretCheck secret hdr qry).1 = false)) ∧
    (∀ (req : ICRequest) (st : ServerState) (now : Nat)
        (responses : Nat → MetaResponse),
      (handleWebhooksIC req st now responses).resp.httpStatus =
        (if (sendToMeta responses).1.isSuccess then 200 else 500)) := by
  refine ⟨?_, ?_, ?_, ?_⟩
  · intro secret req st now responses
    unfold handleMangomint
    repeat' split
    all_goals try simp [MMResp.httpStatus]
    all_goals repeat' split
    all_goals simp [MMResp.httpStatus]
  · intro secret req st now responses
    by_cases hok : (secretCheck secret req.headerSecret req.querySecret).1 = true
    · constructor
      · intro hresp
        unfold handleMangomint at hresp
        rw [hok] at hresp
        repeat' split at hresp
        all_goals try simp_all
        all_goals repeat' split at hresp
        all_goals simp_all
      · intro hfalse
        rw [hok] at hfalse
        cases hfalse
    · have hfail : (secretCheck secret req.headerSecret req.querySecret).1 = false :=
        Bool.eq_false_iff.mpr hok
      constructor
      · intro _
        exact hfail
      · intro _
        unfold handleMangomint
        rw [hfail]
        rfl
  · intro secret hdr qry
    unfold handleSale
    split
    · rename_i hfail
      simp only [Bool.not_eq_true'] at hfail
      simp [hfail]
    · rename_i hok
      simp only [Bool.not_eq_true', Bool.not_eq_false] at hok
      simp [hok]
  · intro req st now responses
    unfold handleWebhooksIC
    cases hres : (sendToMeta responses) with
    | mk r rest =>
      cases r <;> simp [hres, MetaResult.isSuccess, ICResp.httpStatus]

/- ======================= C10: fbclid fabrication ======================= -/

theorem baseUserData_fbc (a : Appt) (ip ua : String) : (baseUserData a ip ua).fbc = "" := by
  unfold baseUserData
  dsimp only
  repeat' split
  all_goals rfl

theorem baseUserData_fbp (a : Appt) (ip ua : String) : (baseUserData a ip ua).fbp = "" := by
  unfold baseUserData
  dsimp only
  repeat' split
  all_goals rfl

theorem fabricated_fbc_ne_empty (t c : String) : "fb.1." ++ t ++ "." ++ c ≠ "" := by
  intro h
  have := congrArg String.data h
  simp [String.data_append] at this

theorem alreadySent_lookup_none (sent : SentCache) (e : String) (now : Nat)
    (h : lookupKey sent e = none) : alreadySent sent e now = (false, sent) := by
  unfold alreadySent
  by_cases he : e = ""
  · rw [if_pos he]
  · rw [if_neg he, h]

/-- The merged user data fabricates `fbc` from a bare `fbclid` when the
referrer carries neither `_fbc` nor `fbc` and no attribution key resolves. -/
theorem mangled_fbc_fabricated (a : Appt) (ic : ICCache) (ip ua : String) (now : Nat)
    (clid : String)
    (heid : getEidFromAppointment a = none)
    (h1 : extractParamFromAny (extractReferrer a) "_fbc" = none)
    (h2 : extractParamFromAny (extractReferrer a) "fbc" = none)
    (h3 : extractParamFromAny (extractReferrer a) "fbclid" = some clid) :
    (mangledUserData a ic ip ua now).1.fbc =
      "fb.1." ++ toString (now / 1000) ++ "." ++ clid ∧
    (mangledUserData a ic ip ua now).2 = ic := by
  have hfab : extractFbcFromString (extractReferrer a) (now / 1000) =
      some ("fb.1." ++ toString (now / 1000) ++ "." ++ clid) := by
    unfold extractFbcFromString
    rw [h1, h2, h3]
  unfold mangledUserData
  rw [heid]
  dsimp only [buildUserDataFromIC]
  rw [hfab, baseUserData_fbc]
  dsimp only
  rw [if_pos rfl]
  cases hfbp : extractFbpFromString (extractReferrer a) <;>
    simp [hfbp, baseUserData_fbp, fabricated_fbc_ne_empty]

/-- C10: a booking webhook call whose referrer/notes text carries an
`fbclid` parameter but no `fbc`/`_fbc` parameter gets a fabricated
browser-click token `fb.1.<epoch seconds>.<fbclid>` as `fbc` in the
outbound identity bundle, and such a booking counts as ad-attributed: it is
not skipped as `no_attribution`, and (barring the dedup guard, here
satisfied by an unseen event id) an outbound delivery carrying that
fabricated token is attempted — even with no attribution key (`eid`) and no
stored attribution record. -/
theorem c10_fbclid_fabrication (secret : String) (req : MMRequest) (st : ServerState)
    (now : Nat) (responses : Nat → MetaResponse) (appt : Appt) (clid : String)
    (hsec : (secretCheck secret req.headerSecret req.querySecret).1 = true)
    (hp : req.payload = some appt)
    (honline : isOnlineBooking appt = true)
    (heid : getEidFromAppointment appt = none)
    (h1 : extractParamFromAny (extractReferrer appt) "_fbc" = none)
    (h2 : extractParamFromAny (extractReferrer appt) "fbc" = none)
    (h3 : extractParamFromAny (extractReferrer appt) "fbclid" = some clid)
    (hnodup : lookupKey st.sent (resolveEventId appt now) = none) :
    (handleMangomint secret req st now responses).resp ≠ .noAttribution ∧
    ∃ b, (handleMangomint secret req st now responses).outbound = some b ∧
      b.user_data.fbc = "fb.1." ++ toString (now / 1000) ++ "." ++ clid := by
  obtain ⟨hfbc, hic⟩ := mangled_fbc_fabricated appt st.ic req.ip req.ua now clid heid h1 h2 h3
  have hne := fabricated_fbc_ne_empty (toString (now / 1000)) clid
  unfold handleMangomint
  rw [if_neg (show ¬((!(secretCheck secret req.headerSecret req.querySecret).1) = true) by
    simp [hsec])]
  rw [hp]
  dsimp only
  rw [if_neg (show ¬((!isOnlineBooking appt) = true) by simp [honline])]
  rcases hM : mangledUserData appt st.ic req.ip req.ua now with ⟨ud, ic'⟩
  rw [hM] at hfbc
  dsimp only at hfbc ⊢
  rw [if_neg (show ¬((!hasMetaAttribution appt ud) = true) by
    simp [hasMetaAttribution, hfbc, hne])]
  rw [alreadySent_lookup_none st.sent _ now hnodup]
  dsimp only
  rcases hS : sendToMeta responses with ⟨res, n, ds⟩
  cases res with
  | success j =>
    exact ⟨by simp, mapAppointmentToPurchase appt (resolveEventId appt now) ud now,
      by simp, by simp [mapAppointmentToPurchase, hfbc]⟩
  | metaError stc b =>
    exact ⟨by simp, mapAppointmentToPurchase appt (resolveEventId appt now) ud now,
      by simp, by simp [mapAppointmentToPurchase, hfbc]⟩
  | unknownError =>
    exact ⟨by simp, mapAppointmentToPurchase appt (resolveEventId appt now) ud now,
      by simp, by simp [mapAppointmentToPurchase, hfbc]⟩

/- ======================= C1: dedup enforcement ======================= -/

theorem toDigitsCore_length_ge (b : Nat) :
    ∀ (f n : Nat) (l : List Char), l.length ≤ (Nat.toDigitsCore b f n l).length := by
  intro f
  induction f with
  | zero => intro n l; exact Nat.le_refl _
  | succ f ih =>
    intro n l
    simp only [Nat.toDigitsCore]
    split
    · simp
    · calc l.length ≤ (Nat.digitChar (n % b) :: l).length := by simp
        _ ≤ _ := ih _ _

theorem natRepr_ne_empty (n : Nat) : Nat.repr n ≠ "" := by
  intro h
  have hd := congrArg String.data h
  have hlen := congrArg List.length hd
  simp only [Nat.repr, List.asString] at hlen
  have h1 : 1 ≤ (Nat.toDigits 10 n).length := by
    unfold Nat.toDigits
    simp only [Nat.toDigitsCore]
    split
    · simp
    · calc 1 = (Nat.digitChar (n % 10) :: ([] : List Char)).length := by simp
        _ ≤ _ := toDigitsCore_length_ge 10 _ _ _
  have hlen' : (Nat.toDigits 10 n).length = 0 := by simpa using hlen
  omega

theorem regexFind_ne_nil (name : List Char) :
    ∀ (s v : List Char), regexFind name s = some v → v ≠ [] := by
  intro s
  induction s with
  | nil => intro v h; simp [regexFind] at h
  | cons c cs ih =>
    intro v h
    simp only [regexFind] at h
    split at h
    · split at h
      · exact ih v h
      · rename_i hne
        have := Option.some.inj h
        rw [← this]
        exact hne
    · exact ih v h

theorem extractParamFromAny_ne_empty (s name v : String)
    (h : extractParamFromAny s name = some v) : v ≠ "" := by
  unfold extractParamFromAny at h
  split at h
  · cases h
  · have hregex : ∀ w : List Char, (regexFind name.data s.data).map (fun l => (⟨l⟩ : String)) = some v →
        v ≠ "" := by
      intro w hw
      obtain ⟨l, hl, hlv⟩ := Option.map_eq_some'.mp hw
      have hnil := regexFind_ne_nil name.data s.data l hl
      rw [← hlv]
      intro hcontra
      exact hnil (congrArg String.data hcontra)
    cases hq : searchParamsGet s.data name.data with
    | none =>
      rw [hq] at h
      exact hregex [] h
    | some w =>
      rw [hq] at h
      dsimp only at h
      split at h
      · rename_i hw
        have := Option.some.inj h
        rw [← this]
        intro hcontra
        exact hw (congrArg String.data hcontra)
      · exact hregex [] h

theorem getEid_ne_empty (a : Appt) (e : String)
    (h : getEidFromAppointment a = some e) : e ≠ "" := by
  unfold getEidFromAppointment at h
  split at h
  · rename_i hne
    rw [← Option.some.inj h]
    exact hne
  · split at h
    · rename_i hne
      rw [← Option.some.inj h]
      exact hne
    · exact extractParamFromAny_ne_empty _ _ _ h

theorem resolveEventId_ne_empty (a : Appt) (now : Nat) : resolveEventId a now ≠ "" := by
  unfold resolveEventId
  cases he : getEidFromAppointment a with
  | some e =>
    dsimp only
    exact getEid_ne_empty a e he
  | none =>
    dsimp only
    unfold jsOr
    by_cases hid : a.id = ""
    · rw [if_pos hid]
      exact natRepr_ne_empty now
    · rw [if_neg hid]
      exact hid

theorem alreadySent_hit (sent : SentCache) (e : String) (now t : Nat)
    (he : e ≠ "") (h : lookupKey sent e = some t) (hw : now - t ≤ SENT_TTL_MS) :
    alreadySent sent e now = (true, sent) := by
  unfold alreadySent
  rw [if_neg he, h]
  dsimp only
  rw [if_neg (by omega : ¬(now - t > SENT_TTL_MS))]

/-- C1: dedup enforcement. (a) A booking call that passes the secret,
online and attribution gates but whose resolved event identifier is already
recorded in the dedup store with age within the 24-hour window is skipped
as a duplicate: no outbound delivery call is made (0 attempts, no payload).
(b) When such a call instead finds no record and the delivery succeeds, the
identifier is recorded at the current time. (c) When the delivery fails,
the call is acknowledged as an error and the dedup store is left unchanged
— the identifier is not recorded. -/
theorem c1_dedup_enforcement :
    (∀ (secret : String) (req : MMRequest) (st : ServerState) (now : Nat)
        (responses : Nat → MetaResponse) (appt : Appt) (t : Nat),
      (secretCheck secret req.headerSecret req.querySecret).1 = true →
      req.payload = some appt →
      isOnlineBooking appt = true →
      hasMetaAttribution appt (mangledUserData appt st.ic req.ip req.ua now).1 = true →
      lookupKey st.sent (resolveEventId appt now) = some t →
      now - t ≤ SENT_TTL_MS →
      (handleMangomint secret req st now responses).resp = .duplicateEvent ∧
        (handleMangomint secret req st now responses).attempts = 0 ∧
        (handleMangomint secret req st now responses).outbound = none) ∧
    (∀ (secret : String) (req : MMRequest) (st : ServerState) (now : Nat)
        (responses : Nat → MetaResponse) (appt : Appt) (j : String),
      (secretCheck secret req.headerSecret req.querySecret).1 = true →
      req.payload = some appt →
      isOnlineBooking appt = true →
      hasMetaAttribution appt (mangledUserData appt st.ic req.ip req.ua now).1 = true →
      lookupKey st.sent (resolveEventId appt now) = none →
      (sendToMeta responses).1 = .success j →
      (handleMangomint secret req st now responses).resp = .okDelivered j ∧
        lookupKey (handleMangomint secret req st now responses).state.sent
          (resolveEventId appt now) = some now) ∧
    (∀ (secret : String) (req : MMRequest) (st : ServerState) (now : Nat)
        (responses : Nat → MetaResponse) (appt : Appt),
      (secretCheck secret req.headerSecret req.querySecret).1 = true →
      req.payload = some appt →
      isOnlineBooking appt = true →
      hasMetaAttribution appt (mangledUserData appt st.ic req.ip req.ua now).1 = true →
      lookupKey st.sent (resolveEventId appt now) = none →
      (sendToMeta responses).1.isSuccess = false →
      (handleMangomint secret req st now responses).resp =
          .errorAck (sendToMeta responses).1 ∧
        (handleMangomint secret req st now responses).state.sent = st.sent) := by
  refine ⟨?_, ?_, ?_⟩
  · intro secret req st now responses appt t hsec hp honline hattr hlook hwin
    unfold handleMangomint
    rw [if_neg (show ¬((!(secretCheck secret req.headerSecret req.querySecret).1) = true) by
      simp [hsec])]
    rw [hp]
    dsimp only
    rw [if_neg (show ¬((!isOnlineBooking appt) = true) by simp [honline])]
    rcases hM : mangledUserData appt st.ic req.ip req.ua now with ⟨ud, ic'⟩
    rw [hM] at hattr
    dsimp only at hattr ⊢
    rw [if_neg (show ¬((!hasMetaAttribution appt ud) = true) by simp [hattr])]
    rw [alreadySent_hit st.sent _ now t (resolveEventId_ne_empty appt now) hlook hwin]
    exact ⟨rfl, rfl, rfl⟩
  · intro secret req st now responses appt j hsec hp honline hattr hlook hsucc
    unfold handleMangomint
    rw [if_neg (show ¬((!(secretCheck secret req.headerSecret req.querySecret).1) = true) by
      simp [hsec])]
    rw [hp]
    dsimp only
    rw [if_neg (show ¬((!isOnlineBooking appt) = true) by simp [honline])]
    rcases hM : mangledUserData appt st.ic req.ip req.ua now with ⟨ud, ic'⟩
    rw [hM] at hattr
    dsimp only at hattr ⊢
    rw [if_neg (show ¬((!hasMetaAttribution appt ud) = true) by simp [hattr])]
    rw [alreadySent_lookup_none st.sent _ now hlook]
    dsimp only
    rcases hS : sendToMeta responses with ⟨res, n, ds⟩
    rw [hS] at hsucc
    dsimp only at hsucc
    rw [hsucc]
    dsimp only
    constructor
    · simp
    · unfold markSent
      rw [if_neg (resolveEventId_ne_empty appt now)]
      exact lookupKey_cons_self _ _ _
  · intro secret req st now responses appt hsec hp honline hattr hlook hfail
    unfold handleMangomint
    rw [if_neg (show ¬((!(secretCheck secret req.headerSecret req.querySecret).1) = true) by
      simp [hsec])]
    rw [hp]
    dsimp only
    rw [if_neg (show ¬((!isOnlineBooking appt) = true) by simp [honline])]
    rcases hM : mangledUserData appt st.ic req.ip req.ua now with ⟨ud, ic'⟩
    rw [hM] at hattr
    dsimp only at hattr ⊢
    rw [if_neg (show ¬((!hasMetaAttribution appt ud) = true) by simp [hattr])]
    rw [alreadySent_lookup_none st.sent _ now hlook]
    dsimp only
    rcases hS : sendToMeta responses with ⟨res, n, ds⟩
    rw [hS] at hfail
    dsimp only at hfail
    cases res with
    | success j => simp [MetaResult.isSuccess] at hfail
    | metaError stc b => exact ⟨rfl, rfl⟩
    | unknownError => exact ⟨rfl, rfl⟩

/-- Concrete instance of C1: with the online booking carrying attribution
key `E1`, a call finding `("E1", 50)` in the dedup store at `now = 100` is
skipped with no delivery attempt; a first call on an empty store with a
succeeding delivery records `("E1", 100)`; the same call with a failing
delivery leaves the store empty. -/
theorem c1_dedup_enforcement_witness :
    ((handleMangomint "" (mmReq apptE1) { ic := [], sent := [("E1", 50)] } 100
        (fun _ => ⟨200, "ok"⟩)).resp = .duplicateEvent ∧
      (handleMangomint "" (mmReq apptE1) { ic := [], sent := [("E1", 50)] } 100
        (fun _ => ⟨200, "ok"⟩)).attempts = 0 ∧
      (handleMangomint "" (mmReq apptE1) { ic := [], sent := [("E1", 50)] } 100
        (fun _ => ⟨200, "ok"⟩)).outbound = none) ∧
    ((handleMangomint "" (mmReq apptE1) {} 100 (fun _ => ⟨200, "ok"⟩)).resp =
        .okDelivered "ok" ∧
      lookupKey (handleMangomint "" (mmReq apptE1) {} 100
          (fun _ => ⟨200, "ok"⟩)).state.sent (resolveEventId apptE1 100) = some 100) ∧
    ((handleMangomint "" (mmReq apptE1) {} 100 (fun _ => ⟨503, "down"⟩)).resp =
        .errorAck (sendToMeta (fun _ => ⟨503, "down"⟩)).1 ∧
      (handleMangomint "" (mmReq apptE1) {} 100 (fun _ => ⟨503, "down"⟩)).state.sent = []) :=
  ⟨c1_dedup_enforcement.1 "" (mmReq apptE1) _ 100 _ apptE1 50 (by decide) rfl (by decide)
      (by decide) (by decide) (by decide),
   c1_dedup_enforcement.2.1 "" (mmReq apptE1) _ 100 _ apptE1 "ok" (by decide) rfl (by decide)
      (by decide) (by decide) (by decide),
   c1_dedup_enforcement.2.2 "" (mmReq apptE1) _ 100 _ apptE1 (by decide) rfl (by decide)
      (by decide) (by decide) (by decide)⟩

/-- Concrete instance of C10: a booking whose online-booking referrer is
`...?fbclid=ABC123` (no `fbc`/`_fbc`, no eid, empty caches) is not skipped
for lack of attribution and its outbound bundle carries the fabricated
token `fb.1.1700000000.ABC123`. -/
theorem c10_fbclid_fabrication_witness :
    (handleMangomint "" (mmReq apptFbclid) {} 1700000000000
      (fun _ => ⟨200, "ok"⟩)).resp ≠ .noAttribution ∧
    ∃ b, (handleMangomint "" (mmReq apptFbclid) {} 1700000000000
        (fun _ => ⟨200, "ok"⟩)).outbound = some b ∧
      b.user_data.fbc = "fb.1." ++ toString (1700000000000 / 1000) ++ "." ++ "ABC123" :=
  c10_fbclid_fabrication "" (mmReq apptFbclid) {} 1700000000000 _ apptFbclid "ABC123"
    (by decide) rfl (by decide) (by decide) (by decide) (by decide) (by decide) (by decide)
